import Mathlib

/-!
Verification of the token-bucket rate limiter in `services/ratelimiter.go`
and the admission middleware in `services/apihandler.go`.

Modelling conventions:
* Time is an integer count of nanoseconds (`ℤ`), matching Go's `time.Time` /
  `time.Duration`, whose resolution is one nanosecond.  `time.Since(t).Seconds()`
  is the rational `(now - t) / 10^9`.
* Go's `float64` arithmetic in the refill computation is read as exact rational
  arithmetic; `int(x)` is truncation toward zero, which on the rational
  `timePassed * refillRate = ((now - lastSeen) * maxLimit) / (10^9 * timeLImit)`
  is exactly `Int.tdiv` of numerator by denominator.
* The Go map `map[string]*RequestMetadata` is modelled as a total function
  `String → Option RequestMetadata`; pointer mutation of an entry becomes
  `Function.update` at that key.
* `sync.Mutex` only serializes calls; the sequential semantics of one `Allow`
  call is what is embedded here.
-/

/-- Nanoseconds per second: the divisor hidden in Go's `Duration.Seconds()`. -/
def nanosPerSecond : ℤ := 1000000000

/-- `RequestMetadata` from ratelimiter.go: `lastSeen time.Time` (here: absolute
nanoseconds) and `tokenCount int`. -/
structure RequestMetadata where
  lastSeen : ℤ
  tokenCount : ℤ
  deriving DecidableEq

/-- `RateLimiter` from ratelimiter.go: the `requests` registry, the configured
`maxLimit` (capacity) and `timeLImit` (window seconds; the field name keeps the
source's spelling).  The mutex is omitted: it only serializes calls. -/
structure RateLimiter where
  requests : String → Option RequestMetadata
  maxLimit : ℤ
  timeLImit : ℤ

/-- `NewRateLimiter(maxLimit, timeLimit)`: empty registry, stored limits. -/
def NewRateLimiter (maxLimit : ℤ) (timeLimit : ℤ) : RateLimiter :=
  { requests := fun _ => none
    maxLimit := maxLimit
    timeLImit := timeLimit }

/-- The refill amount computed by `Allow` for an existing bucket:
`tokensToAdd := int(timePassed * refillRate)` with
`refillRate = float64(maxLimit)/float64(timeLImit)` and
`timePassed = time.Since(metadata.lastSeen).Seconds()`.
In exact arithmetic this is the truncation toward zero of
`((now - lastSeen) / 10^9) * (maxLimit / timeLImit)`. -/
def tokensToAdd (rl : RateLimiter) (metadata : RequestMetadata) (now : ℤ) : ℤ :=
  Int.tdiv ((now - metadata.lastSeen) * rl.maxLimit) (nanosPerSecond * rl.timeLImit)

/-- Lines 45--48 of ratelimiter.go: if `tokensToAdd > 0`, add it to
`tokenCount` and set `lastSeen = now`; otherwise leave the metadata alone. -/
def afterRefill (rl : RateLimiter) (metadata : RequestMetadata) (now : ℤ) : RequestMetadata :=
  if tokensToAdd rl metadata now > 0 then
    { lastSeen := now, tokenCount := metadata.tokenCount + tokensToAdd rl metadata now }
  else
    metadata

/-- Lines 50--52 of ratelimiter.go: clamp `tokenCount` to `maxLimit`. -/
def afterClamp (rl : RateLimiter) (metadata : RequestMetadata) : RequestMetadata :=
  if metadata.tokenCount > rl.maxLimit then
    { metadata with tokenCount := rl.maxLimit }
  else
    metadata

/-- The existing-bucket branch of `Allow` (lines 41--58): refill, clamp, then
consume a token if one is available.  Through the map's pointer every mutation
of the metadata persists, so both outcomes store the updated metadata. -/
def allowExisting (rl : RateLimiter) (apiKey : String) (metadata : RequestMetadata)
    (now : ℤ) : Bool × RateLimiter :=
  let m := afterClamp rl (afterRefill rl metadata now)
  if m.tokenCount > 0 then
    (true, { rl with requests := Function.update rl.requests apiKey
                       (some { m with tokenCount := m.tokenCount - 1 }) })
  else
    (false, { rl with requests := Function.update rl.requests apiKey (some m) })

/-- `Allow(apiKey)` from ratelimiter.go, with the call's `time.Now()` passed in
as `now`.  A never-seen key gets a fresh bucket with `maxLimit - 1` tokens and
`lastSeen = now` and is admitted; an existing bucket goes through refill,
clamp and consumption. -/
def Allow (rl : RateLimiter) (now : ℤ) (apiKey : String) : Bool × RateLimiter :=
  match rl.requests apiKey with
  | none =>
      (true, { rl with requests := Function.update rl.requests apiKey
                         (some { lastSeen := now, tokenCount := rl.maxLimit - 1 }) })
  | some metadata => allowExisting rl apiKey metadata now

/-- State after a sequence of `Allow` calls; each call carries its key and its
`time.Now()` value in nanoseconds. -/
def runState (rl : RateLimiter) (calls : List (String × ℤ)) : RateLimiter :=
  calls.foldl (fun s c => (Allow s c.2 c.1).2) rl

/-- The list of boolean outcomes of a sequence of `Allow` calls. -/
def allowOutputs (rl : RateLimiter) (calls : List (String × ℤ)) : List Bool :=
  match calls with
  | [] => []
  | c :: rest => (Allow rl c.2 c.1).1 :: allowOutputs (Allow rl c.2 c.1).2 rest

/-- The request attributes the middleware looks at: the value of the
`X-API-KEY` header (`none` when the header is absent). -/
structure Request where
  xApiKey : Option String
  deriving DecidableEq

/-- Go's `r.Header.Get("X-API-KEY")`: the header value, or `""` when absent. -/
def headerGetXApiKey (r : Request) : String :=
  r.xApiKey.getD ""

/-- What the wrapped handler does with a request: `http.Error(w, body, status)`
(no forwarding) or `next.ServeHTTP(w, r)` with the request it was given. -/
inductive HttpResult where
  | errorResponse (status : ℤ) (body : String)
  | forwarded (r : Request)
  deriving DecidableEq

/-- Modelled from the spec: the `api-store` package (`apistore.GetApiKeys`) is
not under src/; spec section 6 calls it the external credential-validity
collaborator `CredentialStore.IsValid(key) -> bool`, so the set of valid keys
is a predicate argument `apiKeys`.  With that, this mirrors apihandler.go
lines 30--34: `_, exists := apiKeys[apiKey]; return exists`. -/
def isValidApiKey (apiKeys : String → Bool) (apiKey : String) : Bool :=
  apiKeys apiKey

/-- `RateLimiterMiddleware` from apihandler.go: extract the `X-API-KEY`
header; empty → 401 `Missing API key`; unknown key → 401 `Invalid API key`;
`Allow` false → 429 `Rate limit exceeded`; otherwise forward the request
unchanged to the wrapped handler.  The limiter state is threaded through. -/
def RateLimiterMiddleware (apiKeys : String → Bool) (rl : RateLimiter) (now : ℤ)
    (r : Request) : HttpResult × RateLimiter :=
  let apiKey := headerGetXApiKey r
  if apiKey = "" then
    (HttpResult.errorResponse 401 "Missing API key", rl)
  else if !(isValidApiKey apiKeys apiKey) then
    (HttpResult.errorResponse 401 "Invalid API key", rl)
  else
    let res := Allow rl now apiKey
    if !res.1 then
      (HttpResult.errorResponse 429 "Rate limit exceeded", res.2)
    else
      (HttpResult.forwarded r, res.2)

/-! Rewriting lemmas for `Allow` and small facts used by several proofs. -/

lemma Allow_eq_none (rl : RateLimiter) (now : ℤ) (key : String)
    (h : rl.requests key = none) :
    Allow rl now key =
      (true, { rl with requests := Function.update rl.requests key
                         (some { lastSeen := now, tokenCount := rl.maxLimit - 1 }) }) := by
  unfold Allow
  rw [h]

lemma Allow_eq_some (rl : RateLimiter) (now : ℤ) (key : String) (m : RequestMetadata)
    (h : rl.requests key = some m) :
    Allow rl now key = allowExisting rl key m now := by
  unfold Allow
  rw [h]

lemma afterClamp_lastSeen (rl : RateLimiter) (m : RequestMetadata) :
    (afterClamp rl m).lastSeen = m.lastSeen := by
  unfold afterClamp
  split <;> rfl

lemma tokensToAdd_self (rl : RateLimiter) (m : RequestMetadata) :
    tokensToAdd rl m m.lastSeen = 0 := by
  simp [tokensToAdd]

lemma Allow_snd_maxLimit (rl : RateLimiter) (now : ℤ) (key : String) :
    ((Allow rl now key).2).maxLimit = rl.maxLimit := by
  cases h : rl.requests key with
  | none => rw [Allow_eq_none rl now key h]
  | some m =>
      rw [Allow_eq_some rl now key m h]
      unfold allowExisting
      dsimp only
      split <;> rfl

lemma Allow_snd_timeLImit (rl : RateLimiter) (now : ℤ) (key : String) :
    ((Allow rl now key).2).timeLImit = rl.timeLImit := by
  cases h : rl.requests key with
  | none => rw [Allow_eq_none rl now key h]
  | some m =>
      rw [Allow_eq_some rl now key m h]
      unfold allowExisting
      dsimp only
      split <;> rfl

lemma Allow_requests_other (rl : RateLimiter) (now : ℤ) (a b : String)
    (hba : b ≠ a) : ((Allow rl now a).2).requests b = rl.requests b := by
  cases h : rl.requests a with
  | none =>
      rw [Allow_eq_none rl now a h]
      exact Function.update_noteq hba _ _
  | some m =>
      rw [Allow_eq_some rl now a m h]
      unfold allowExisting
      dsimp only
      split <;> exact Function.update_noteq hba _ _

/-- The bucket invariant: every existing bucket's token count lies in
`[0, maxLimit]`. -/
def BucketInv (rl : RateLimiter) : Prop :=
  ∀ k m, rl.requests k = some m → 0 ≤ m.tokenCount ∧ m.tokenCount ≤ rl.maxLimit

lemma refill_clamp_noop (rl : RateLimiter) (m : RequestMetadata) (now : ℤ)
    (hc : m.tokenCount ≤ rl.maxLimit) (ht : tokensToAdd rl m now ≤ 0) :
    afterClamp rl (afterRefill rl m now) = m := by
  have h1 : afterRefill rl m now = m := by
    unfold afterRefill
    rw [if_neg (by omega)]
  rw [h1]
  unfold afterClamp
  rw [if_neg (by omega)]

lemma clamped_bounds (rl : RateLimiter) (m : RequestMetadata) (now : ℤ)
    (h0 : 0 ≤ m.tokenCount) (hc : m.tokenCount ≤ rl.maxLimit) :
    0 ≤ (afterClamp rl (afterRefill rl m now)).tokenCount ∧
      (afterClamp rl (afterRefill rl m now)).tokenCount ≤ rl.maxLimit := by
  by_cases ht : tokensToAdd rl m now > 0
  · unfold afterRefill
    rw [if_pos ht]
    unfold afterClamp
    split
    all_goals rename_i h2
    all_goals dsimp only at h2 ⊢
    all_goals omega
  · push_neg at ht
    rw [refill_clamp_noop rl m now hc ht]
    exact ⟨h0, hc⟩

lemma clamped_pos (rl : RateLimiter) (m : RequestMetadata) (now : ℤ)
    (hcap : 0 < rl.maxLimit) (h0 : 0 ≤ m.tokenCount)
    (ht : 0 < tokensToAdd rl m now) :
    0 < (afterClamp rl (afterRefill rl m now)).tokenCount := by
  unfold afterRefill
  rw [if_pos ht]
  unfold afterClamp
  split
  all_goals rename_i h2
  all_goals dsimp only at h2 ⊢
  all_goals omega

lemma Allow_preserves_BucketInv (rl : RateLimiter) (now : ℤ) (key : String)
    (hcap : 0 < rl.maxLimit) (hInv : BucketInv rl) :
    BucketInv (Allow rl now key).2 := by
  cases h : rl.requests key with
  | none =>
      rw [Allow_eq_none rl now key h]
      intro k m hk
      dsimp only at hk ⊢
      by_cases hkey : k = key
      · subst hkey
        rw [Function.update_same] at hk
        injection hk with hk
        subst hk
        dsimp only
        omega
      · rw [Function.update_noteq hkey] at hk
        exact hInv k m hk
  | some md =>
      rw [Allow_eq_some rl now key md h]
      have hb := hInv key md h
      have hcl := clamped_bounds rl md now hb.1 hb.2
      unfold allowExisting
      dsimp only
      split
      · intro k m hk
        dsimp only at hk ⊢
        by_cases hkey : k = key
        · subst hkey
          rw [Function.update_same] at hk
          injection hk with hk
          subst hk
          dsimp only
          omega
        · rw [Function.update_noteq hkey] at hk
          exact hInv k m hk
      · intro k m hk
        dsimp only at hk ⊢
        by_cases hkey : k = key
        · subst hkey
          rw [Function.update_same] at hk
          injection hk with hk
          subst hk
          exact hcl
        · rw [Function.update_noteq hkey] at hk
          exact hInv k m hk

lemma runState_maxLimit (rl : RateLimiter) (calls : List (String × ℤ)) :
    (runState rl calls).maxLimit = rl.maxLimit := by
  induction calls generalizing rl with
  | nil => rfl
  | cons c rest ih =>
      show (runState (Allow rl c.2 c.1).2 rest).maxLimit = rl.maxLimit
      rw [ih, Allow_snd_maxLimit]

lemma runState_BucketInv (rl : RateLimiter) (calls : List (String × ℤ))
    (hcap : 0 < rl.maxLimit) (hInv : BucketInv rl) :
    BucketInv (runState rl calls) := by
  induction calls generalizing rl with
  | nil => exact hInv
  | cons c rest ih =>
      show BucketInv (runState (Allow rl c.2 c.1).2 rest)
      exact ih (Allow rl c.2 c.1).2
        (by rw [Allow_snd_maxLimit]; exact hcap)
        (Allow_preserves_BucketInv rl c.2 c.1 hcap hInv)

/-- A rejected call on an existing in-bounds bucket leaves the whole limiter
unchanged, and the bucket's token count was already zero: rejection requires
the clamped count to be nonpositive, which (tokens being nonnegative) forces
`tokensToAdd ≤ 0`, so neither the refill nor the clamp nor the final branch
writes anything new. -/
lemma allow_reject_eq (rl : RateLimiter) (now : ℤ) (key : String) (m : RequestMetadata)
    (hcap : 0 < rl.maxLimit) (hm : rl.requests key = some m)
    (h0 : 0 ≤ m.tokenCount) (hc : m.tokenCount ≤ rl.maxLimit)
    (hfalse : (Allow rl now key).1 = false) :
    (Allow rl now key).2 = rl ∧ m.tokenCount = 0 := by
  rw [Allow_eq_some rl now key m hm] at hfalse ⊢
  by_cases ht : 0 < tokensToAdd rl m now
  · exfalso
    have hpos := clamped_pos rl m now hcap h0 ht
    unfold allowExisting at hfalse
    dsimp only at hfalse
    rw [if_pos hpos] at hfalse
    simp at hfalse
  · push_neg at ht
    have hnoop := refill_clamp_noop rl m now hc ht
    unfold allowExisting at hfalse ⊢
    dsimp only at hfalse ⊢
    rw [hnoop] at hfalse ⊢
    by_cases hpos : m.tokenCount > 0
    · rw [if_pos hpos] at hfalse
      simp at hfalse
    · rw [if_neg hpos] at hfalse ⊢
      have hzero : m.tokenCount = 0 := by omega
      refine ⟨?_, hzero⟩
      have hupd : Function.update rl.requests key (some m) = rl.requests := by
        rw [← hm]
        exact Function.update_eq_self key rl.requests
      show ({ rl with requests := Function.update rl.requests key (some m) } : RateLimiter) = rl
      rw [hupd]

/-! The claims. -/

/-- C1: for every limiter constructed with positive capacity and window
seconds, after any sequence of `Allow` calls the token count of every
existing bucket lies in `[0, capacity]`. -/
theorem tokenCount_bounds (cap win : ℤ) (hcap : 0 < cap) (hwin : 0 < win)
    (calls : List (String × ℤ)) (k : String) (m : RequestMetadata)
    (hm : (runState (NewRateLimiter cap win) calls).requests k = some m) :
    0 ≤ m.tokenCount ∧ m.tokenCount ≤ cap := by
  have hInv := runState_BucketInv (NewRateLimiter cap win) calls hcap
    (fun k m h => Option.noConfusion h)
  have hb := hInv k m hm
  rw [runState_maxLimit] at hb
  exact hb

theorem tokenCount_bounds_witness :
    0 ≤ (RequestMetadata.mk 0 0).tokenCount ∧
      (RequestMetadata.mk 0 0).tokenCount ≤ 1 :=
  tokenCount_bounds 1 1 (by decide) (by decide) [("k", 0)] "k"
    (RequestMetadata.mk 0 0) (by decide)

/-- C2: the first `Allow` on a never-seen key returns true and leaves that
key's bucket with `capacity - 1` tokens and `lastRefillTime` equal to the
call's current time. -/
theorem first_allow_admits (rl : RateLimiter) (now : ℤ) (key : String)
    (h : rl.requests key = none) :
    (Allow rl now key).1 = true ∧
      ((Allow rl now key).2).requests key =
        some { lastSeen := now, tokenCount := rl.maxLimit - 1 } := by
  rw [Allow_eq_none rl now key h]
  refine ⟨rfl, ?_⟩
  exact Function.update_same _ _ _

theorem first_allow_admits_witness :
    (Allow (NewRateLimiter 5 60) 0 "fresh").1 = true ∧
      ((Allow (NewRateLimiter 5 60) 0 "fresh").2).requests "fresh" =
        some { lastSeen := 0, tokenCount := (NewRateLimiter 5 60).maxLimit - 1 } :=
  first_allow_admits (NewRateLimiter 5 60) 0 "fresh" rfl

/-- C3: with capacity 5 and window 60, six back-to-back calls on one fresh
key return true five times, then false. -/
theorem burst_exhaustion :
    allowOutputs (NewRateLimiter 5 60) (List.replicate 6 ("k", 0)) =
      [true, true, true, true, true, false] := by
  decide

/-- C4: a call whose computed whole-token refill is zero leaves
`lastRefillTime` unchanged, so a later call computes its refill from the full
elapsed interval since the last actual token addition, not merely since the
most recent call. -/
theorem fractional_retention (rl : RateLimiter) (key : String) (m : RequestMetadata)
    (t1 t2 : ℤ) (hm : rl.requests key = some m)
    (hzero : tokensToAdd rl m t1 = 0) :
    ∃ m', ((Allow rl t1 key).2).requests key = some m' ∧
      m'.lastSeen = m.lastSeen ∧
      tokensToAdd rl m' t2 =
        Int.tdiv ((t2 - m.lastSeen) * rl.maxLimit) (nanosPerSecond * rl.timeLImit) := by
  rw [Allow_eq_some rl t1 key m hm]
  have hr : afterRefill rl m t1 = m := by
    unfold afterRefill
    rw [if_neg (by omega)]
  have htta : ∀ x : RequestMetadata, x.lastSeen = m.lastSeen →
      tokensToAdd rl x t2 =
        Int.tdiv ((t2 - m.lastSeen) * rl.maxLimit) (nanosPerSecond * rl.timeLImit) := by
    intro x hx
    unfold tokensToAdd
    rw [hx]
  unfold allowExisting
  dsimp only
  rw [hr]
  split
  · have hls : ({ afterClamp rl m with
        tokenCount := (afterClamp rl m).tokenCount - 1 } : RequestMetadata).lastSeen =
          m.lastSeen := afterClamp_lastSeen rl m
    exact ⟨_, Function.update_same _ _ _, hls, htta _ hls⟩
  · have hls := afterClamp_lastSeen rl m
    exact ⟨_, Function.update_same _ _ _, hls, htta _ hls⟩

theorem fractional_retention_witness :
    ∃ m', ((Allow (runState (NewRateLimiter 5 60) [("k", 0)])
          (5 * nanosPerSecond) "k").2).requests "k" = some m' ∧
      m'.lastSeen = (RequestMetadata.mk 0 4).lastSeen ∧
      tokensToAdd (runState (NewRateLimiter 5 60) [("k", 0)]) m' (13 * nanosPerSecond) =
        Int.tdiv ((13 * nanosPerSecond - (RequestMetadata.mk 0 4).lastSeen) *
            (runState (NewRateLimiter 5 60) [("k", 0)]).maxLimit)
          (nanosPerSecond * (runState (NewRateLimiter 5 60) [("k", 0)]).timeLImit) :=
  fractional_retention (runState (NewRateLimiter 5 60) [("k", 0)]) "k"
    (RequestMetadata.mk 0 4) (5 * nanosPerSecond) (13 * nanosPerSecond)
    (by decide) (by decide)

/-- C5: with capacity 5 and window 60, after the sixth back-to-back call is
rejected, advancing time by exactly 12 seconds admits exactly one more call:
the seventh call returns true and the eighth, at the same instant, false. -/
theorem refill_after_twelve_seconds :
    allowOutputs (NewRateLimiter 5 60)
      (List.replicate 6 ("k", 0) ++
        [("k", 12 * nanosPerSecond), ("k", 12 * nanosPerSecond)]) =
      [true, true, true, true, true, false, true, false] := by
  decide

/-- C6: a call for key `a` leaves any other key `b`'s registry entry
untouched, and if `b` had no bucket then `Allow(b)` afterwards still admits
with a fresh bucket. -/
theorem key_independence (rl : RateLimiter) (now now2 : ℤ) (a b : String)
    (hab : a ≠ b) :
    ((Allow rl now a).2).requests b = rl.requests b ∧
      (rl.requests b = none → (Allow ((Allow rl now a).2) now2 b).1 = true) := by
  have hframe := Allow_requests_other rl now a b (Ne.symm hab)
  refine ⟨hframe, fun hnone => ?_⟩
  rw [Allow_eq_none _ now2 b (hframe.trans hnone)]

theorem key_independence_witness :
    ((Allow (runState (NewRateLimiter 5 60) (List.replicate 6 ("a", 0))) 0 "a").2).requests "b" =
        (runState (NewRateLimiter 5 60) (List.replicate 6 ("a", 0))).requests "b" ∧
      ((runState (NewRateLimiter 5 60) (List.replicate 6 ("a", 0))).requests "b" = none →
        (Allow ((Allow (runState (NewRateLimiter 5 60) (List.replicate 6 ("a", 0))) 0 "a").2)
            0 "b").1 = true) :=
  key_independence (runState (NewRateLimiter 5 60) (List.replicate 6 ("a", 0)))
    0 0 "a" "b" (by decide)

/-- C7: the middleware checks, in order: empty or absent `X-API-KEY` header →
401 and no forwarding; key not in the valid set → 401 and no forwarding;
`Allow` false → 429 and no forwarding; otherwise the request is forwarded
unchanged to the wrapped handler. -/
theorem middleware_gate (apiKeys : String → Bool) (rl : RateLimiter) (now : ℤ)
    (r : Request) :
    (headerGetXApiKey r = "" →
        RateLimiterMiddleware apiKeys rl now r =
          (HttpResult.errorResponse 401 "Missing API key", rl)) ∧
      (headerGetXApiKey r ≠ "" →
        isValidApiKey apiKeys (headerGetXApiKey r) = false →
        RateLimiterMiddleware apiKeys rl now r =
          (HttpResult.errorResponse 401 "Invalid API key", rl)) ∧
      (headerGetXApiKey r ≠ "" →
        isValidApiKey apiKeys (headerGetXApiKey r) = true →
        (Allow rl now (headerGetXApiKey r)).1 = false →
        RateLimiterMiddleware apiKeys rl now r =
          (HttpResult.errorResponse 429 "Rate limit exceeded",
            (Allow rl now (headerGetXApiKey r)).2)) ∧
      (headerGetXApiKey r ≠ "" →
        isValidApiKey apiKeys (headerGetXApiKey r) = true →
        (Allow rl now (headerGetXApiKey r)).1 = true →
        RateLimiterMiddleware apiKeys rl now r =
          (HttpResult.forwarded r, (Allow rl now (headerGetXApiKey r)).2)) := by
  refine ⟨?_, ?_, ?_, ?_⟩
  · intro h1
    simp [RateLimiterMiddleware, h1]
  · intro h1 h2
    simp [RateLimiterMiddleware, h1, h2]
  · intro h1 h2 h3
    simp [RateLimiterMiddleware, h1, h2, h3]
  · intro h1 h2 h3
    simp [RateLimiterMiddleware, h1, h2, h3]

theorem middleware_gate_witness :
    RateLimiterMiddleware (fun k => k == "valid") (NewRateLimiter 1 60) 0
        (Request.mk (some "valid")) =
      (HttpResult.forwarded (Request.mk (some "valid")),
        (Allow (NewRateLimiter 1 60) 0
          (headerGetXApiKey (Request.mk (some "valid")))).2) :=
  (middleware_gate (fun k => k == "valid") (NewRateLimiter 1 60) 0
    (Request.mk (some "valid"))).2.2.2 (by decide) (by decide) (by decide)

/-- C8 counterexample: the sixth back-to-back call on a capacity-5 bucket is
rejected and leaves the key's bucket state exactly as it was, refuting the
claim that every call, admitted or rejected, changes that key's bucket
state. -/
theorem every_call_mutates_cex :
    (Allow (runState (NewRateLimiter 5 60) (List.replicate 5 ("k", 0))) 0 "k").1 = false ∧
      ((Allow (runState (NewRateLimiter 5 60) (List.replicate 5 ("k", 0))) 0 "k").2).requests "k" =
        (runState (NewRateLimiter 5 60) (List.replicate 5 ("k", 0))).requests "k" := by
  decide

/-- C8 amended: on any reachable state of a positively-configured limiter, an
admitted `Allow(key)` call changes the bucket state stored for `key`, while a
rejected call leaves the entire limiter unchanged. -/
theorem allow_mutation (cap win : ℤ) (hcap : 0 < cap) (hwin : 0 < win)
    (calls : List (String × ℤ)) (rl : RateLimiter)
    (hrl : rl = runState (NewRateLimiter cap win) calls)
    (key : String) (now : ℤ) :
    ((Allow rl now key).1 = true →
        ((Allow rl now key).2).requests key ≠ rl.requests key) ∧
      ((Allow rl now key).1 = false → (Allow rl now key).2 = rl) := by
  have hcap' : 0 < rl.maxLimit := by
    subst hrl
    rw [runState_maxLimit]
    exact hcap
  have hInv : BucketInv rl := by
    subst hrl
    exact runState_BucketInv _ _ hcap (fun k m h => Option.noConfusion h)
  constructor
  · intro htrue
    cases h : rl.requests key with
    | none =>
        rw [Allow_eq_none rl now key h]
        dsimp only
        rw [Function.update_same]
        exact fun hx => Option.noConfusion hx
    | some m =>
        have hb := hInv key m h
        rw [Allow_eq_some rl now key m h] at htrue ⊢
        unfold allowExisting at htrue ⊢
        dsimp only at htrue ⊢
        by_cases ht : 0 < tokensToAdd rl m now
        · have h1 : (afterRefill rl m now).lastSeen = now := by
            unfold afterRefill
            rw [if_pos ht]
          have hpos := clamped_pos rl m now hcap' hb.1 ht
          rw [if_pos hpos]
          dsimp only
          rw [Function.update_same]
          intro hx
          injection hx with hx
          have h2a := congrArg RequestMetadata.lastSeen hx
          have h2 : (afterClamp rl (afterRefill rl m now)).lastSeen = m.lastSeen := h2a
          rw [afterClamp_lastSeen, h1] at h2
          rw [h2, tokensToAdd_self] at ht
          exact absurd ht (lt_irrefl 0)
        · push_neg at ht
          have hnoop := refill_clamp_noop rl m now hb.2 ht
          rw [hnoop] at htrue ⊢
          by_cases hpos : m.tokenCount > 0
          · rw [if_pos hpos]
            dsimp only
            rw [Function.update_same]
            intro hx
            injection hx with hx
            have h2a := congrArg RequestMetadata.tokenCount hx
            have h2 : m.tokenCount - 1 = m.tokenCount := h2a
            omega
          · rw [if_neg hpos] at htrue
            exact Bool.noConfusion htrue
  · intro hfalse
    cases h : rl.requests key with
    | none =>
        rw [Allow_eq_none rl now key h] at hfalse
        exact Bool.noConfusion hfalse
    | some m =>
        have hb := hInv key m h
        exact (allow_reject_eq rl now key m hcap' h hb.1 hb.2 hfalse).1

theorem allow_mutation_witness :
    ((Allow (NewRateLimiter 5 60) 0 "k").1 = true →
        ((Allow (NewRateLimiter 5 60) 0 "k").2).requests "k" ≠
          (NewRateLimiter 5 60).requests "k") ∧
      ((Allow (NewRateLimiter 5 60) 0 "k").1 = false →
        (Allow (NewRateLimiter 5 60) 0 "k").2 = NewRateLimiter 5 60) :=
  allow_mutation 5 60 (by decide) (by decide) [] (NewRateLimiter 5 60) rfl "k" 0

/-- C10: on any reachable state of a positively-configured limiter, a
rejected `Allow(key)` call leaves the entire limiter (in particular `key`'s
bucket, both fields) unchanged, and that bucket's token count was already
zero. -/
theorem reject_preserves_bucket (cap win : ℤ) (hcap : 0 < cap) (hwin : 0 < win)
    (calls : List (String × ℤ)) (rl : RateLimiter)
    (hrl : rl = runState (NewRateLimiter cap win) calls)
    (key : String) (now : ℤ) (m : RequestMetadata)
    (hm : rl.requests key = some m)
    (hfalse : (Allow rl now key).1 = false) :
    (Allow rl now key).2 = rl ∧
      ((Allow rl now key).2).requests key = some m ∧ m.tokenCount = 0 := by
  have hcap' : 0 < rl.maxLimit := by
    subst hrl
    rw [runState_maxLimit]
    exact hcap
  have hInv : BucketInv rl := by
    subst hrl
    exact runState_BucketInv _ _ hcap (fun k m h => Option.noConfusion h)
  have hb := hInv key m hm
  have h1 := allow_reject_eq rl now key m hcap' hm hb.1 hb.2 hfalse
  refine ⟨h1.1, ?_, h1.2⟩
  rw [h1.1]
  exact hm

theorem reject_preserves_bucket_witness :
    (Allow (runState (NewRateLimiter 1 60) [("k", 0)]) 0 "k").2 =
        runState (NewRateLimiter 1 60) [("k", 0)] ∧
      ((Allow (runState (NewRateLimiter 1 60) [("k", 0)]) 0 "k").2).requests "k" =
        some (RequestMetadata.mk 0 0) ∧
      (RequestMetadata.mk 0 0).tokenCount = 0 :=
  reject_preserves_bucket 1 60 (by decide) (by decide) [("k", 0)]
    (runState (NewRateLimiter 1 60) [("k", 0)]) rfl "k" 0
    (RequestMetadata.mk 0 0) (by decide) (by decide)
